import Mathlib

/-!
Verification of the episode/playback resolution and continuity engine of a
streaming catalog browser (Next.js/TypeScript).  The definitions below are a
shallow embedding of the TypeScript source: pure functions become Lean
functions, component state plus event handlers become explicit step functions
on state types, JavaScript exceptions become `Except`, and JSON values become
an inductive type.  JavaScript numbers that the program only ever compares,
stores and reprints are embedded as `Int` (query parameters, season/episode
ordinals, timestamps, percentages); URL strings in the URL-building lemmas are
embedded as byte lists, which is the level percent-encoding operates at.
-/

namespace MovieApp

/-! ## Data model (src/lib/schemas.ts shapes used by the player) -/

/-- An episode as consumed by the player (`ParsedEpisode`): ordinal number and
optional direct player URL.  Fields not read by the verified logic (title,
runtime, cover) are omitted. -/
structure ParsedEpisode where
  episodeNumber : Int
  playerUrl : Option String := none
  deriving Repr, DecidableEq

/-- A season (`ParsedSeason`): ordinal number and its ordered episodes. -/
structure ParsedSeason where
  seasonNumber : Int
  episodes : List ParsedEpisode
  deriving Repr, DecidableEq

/-- The persisted last-watched record (`LastWatchedData` in the storage
modules): season, episode, last-update timestamp, optional playback offset. -/
structure LastWatchedData where
  season : Int
  episode : Int
  updatedAt : Int
  playbackTime : Option Int := none
  deriving Repr, DecidableEq

/-! ## Selection resolution (src/app/title/[detailPath]/EpisodePlayer.tsx) -/

/-- `findEpisode` (EpisodePlayer.tsx:35-44): find the first season with the
given season number, then the first of its episodes with the given episode
number. -/
def findEpisode (seasons : List ParsedSeason) (seasonNum episodeNum : Int) :
    Option ParsedEpisode :=
  match seasons.find? (fun s => s.seasonNumber == seasonNum) with
  | none => none
  | some season => season.episodes.find? (fun e => e.episodeNumber == episodeNum)

/-- `isValidSelection` (EpisodePlayer.tsx:57-63): the pair exists in the
catalog. -/
def isValidSelection (seasons : List ParsedSeason) (seasonNum episodeNum : Int) :
    Bool :=
  (findEpisode seasons seasonNum episodeNum).isSome

/-- `firstSeason` fallback (EpisodePlayer.tsx:88): `seasons[0]?.seasonNumber ?? 1`. -/
def firstSeasonNum (seasons : List ParsedSeason) : Int :=
  match seasons with
  | [] => 1
  | s :: _ => s.seasonNumber

/-- `firstEpisode` fallback (EpisodePlayer.tsx:89):
`seasons[0]?.episodes[0]?.episodeNumber ?? 1`. -/
def firstEpisodeNum (seasons : List ParsedSeason) : Int :=
  match seasons with
  | [] => 1
  | s :: _ =>
    match s.episodes with
    | [] => 1
    | e :: _ => e.episodeNumber

/-- `getInitialValues` (EpisodePlayer.tsx:96-114).  `qpSeason` and `qpEpisode`
are the already-coerced query parameters of EpisodePlayer.tsx:92-93
(`Number(searchParams.get("season")) || 0`): `0` encodes an absent or
non-numeric parameter, so `qpSeason > 0` is the code's "present and positive"
test. -/
def getInitialValues (seasons : List ParsedSeason) (qpSeason qpEpisode : Int)
    (lastWatched : Option LastWatchedData) : Int × Int :=
  if qpSeason > 0 && qpEpisode > 0 && isValidSelection seasons qpSeason qpEpisode then
    (qpSeason, qpEpisode)
  else
    match lastWatched with
    | some lw =>
      if isValidSelection seasons lw.season lw.episode then
        (lw.season, lw.episode)
      else
        (firstSeasonNum seasons, firstEpisodeNum seasons)
    | none => (firstSeasonNum seasons, firstEpisodeNum seasons)

/-- The URL-to-state sync effect (EpisodePlayer.tsx:132-148): adopt the URL
pair only when both parameters are positive and the pair validates against the
catalog; otherwise the current selection is kept. -/
def urlSyncSelection (seasons : List ParsedSeason) (qpSeason qpEpisode : Int)
    (current : Int × Int) : Int × Int :=
  if qpSeason > 0 && qpEpisode > 0 && isValidSelection seasons qpSeason qpEpisode then
    (qpSeason, qpEpisode)
  else
    current

/-- `handleEpisodeSelect` (EpisodePlayer.tsx:281-293): the selection is set to
the given pair with no validity check. -/
def handleEpisodeSelect (seasonNum episodeNum : Int) : Int × Int :=
  (seasonNum, episodeNum)

/-- `handleContinueWatching` (EpisodePlayer.tsx:298-301): adopt the stored
last-watched pair, unvalidated; no-op when no record exists. -/
def handleContinueWatching (lastWatched : Option LastWatchedData)
    (current : Int × Int) : Int × Int :=
  match lastWatched with
  | none => current
  | some lw => handleEpisodeSelect lw.season lw.episode

/-- Render condition of the continue-watching button
(EpisodePlayer.tsx:344-346): a record exists and differs from the current
selection. -/
def continueButtonShown (lastWatched : Option LastWatchedData)
    (current : Int × Int) : Bool :=
  match lastWatched with
  | none => false
  | some lw => lw.season != current.1 || lw.episode != current.2

/-- Whether a last-watched record exists and validates against the catalog
(the guard of priority 2 in `getInitialValues`). -/
def lastWatchedValid (seasons : List ParsedSeason)
    (lastWatched : Option LastWatchedData) : Prop :=
  ∃ lw, lastWatched = some lw ∧ isValidSelection seasons lw.season lw.episode = true

instance (seasons : List ParsedSeason) (lastWatched : Option LastWatchedData) :
    Decidable (lastWatchedValid seasons lastWatched) := by
  unfold lastWatchedValid
  cases lastWatched with
  | none => exact .isFalse (by simp)
  | some lw =>
    by_cases h : isValidSelection seasons lw.season lw.episode = true
    · exact .isTrue ⟨lw, rfl, h⟩
    · exact .isFalse (by simp [h])

/-- C1 — `getInitialValues` follows the fixed priority order:
valid URL pair, else valid last-watched pair, else the first episode of the
first season in catalog order (the catalog being nonempty with a nonempty
first season, as for any episodic title). -/
theorem C1_initial_selection_priority (seasons : List ParsedSeason)
    (qpSeason qpEpisode : Int) (lastWatched : Option LastWatchedData)
    (s0 : ParsedSeason) (e0 : ParsedEpisode) (rest : List ParsedSeason)
    (erest : List ParsedEpisode)
    (hs : seasons = s0 :: rest) (he : s0.episodes = e0 :: erest) :
    (qpSeason > 0 ∧ qpEpisode > 0 ∧ isValidSelection seasons qpSeason qpEpisode = true →
      getInitialValues seasons qpSeason qpEpisode lastWatched = (qpSeason, qpEpisode)) ∧
    (¬ (qpSeason > 0 ∧ qpEpisode > 0 ∧ isValidSelection seasons qpSeason qpEpisode = true) →
      ∀ lw, lastWatched = some lw →
        isValidSelection seasons lw.season lw.episode = true →
        getInitialValues seasons qpSeason qpEpisode lastWatched = (lw.season, lw.episode)) ∧
    (¬ (qpSeason > 0 ∧ qpEpisode > 0 ∧ isValidSelection seasons qpSeason qpEpisode = true) →
      ¬ lastWatchedValid seasons lastWatched →
      getInitialValues seasons qpSeason qpEpisode lastWatched =
        (s0.seasonNumber, e0.episodeNumber)) := by
  subst hs
  refine ⟨?_, ?_, ?_⟩
  · intro ⟨h1, h2, h3⟩
    simp [getInitialValues, h1, h2, h3]
  · intro hurl lw hlw hvalid
    subst hlw
    have hno : ¬ (qpSeason > 0 && qpEpisode > 0 &&
        isValidSelection (s0 :: rest) qpSeason qpEpisode) = true := by
      simpa [and_assoc] using hurl
    simp only [getInitialValues, if_neg hno]
    simp [hvalid]
  · intro hurl hlw
    have hno : ¬ (qpSeason > 0 && qpEpisode > 0 &&
        isValidSelection (s0 :: rest) qpSeason qpEpisode) = true := by
      simpa [and_assoc] using hurl
    simp only [getInitialValues, if_neg hno]
    cases lastWatched with
    | none => simp [firstSeasonNum, firstEpisodeNum, he]
    | some lw =>
      have hbad : ¬ isValidSelection (s0 :: rest) lw.season lw.episode = true := by
        intro hc
        exact hlw ⟨lw, rfl, hc⟩
      simp [hbad, firstSeasonNum, firstEpisodeNum, he]

/-- Witness for C1 on the spec's example catalog (one season, episodes 1–3):
URL pair (1,2) wins; with no URL pair, a stored (1,3) wins; with neither, the
selection is (1,1). -/
theorem C1_initial_selection_priority_witness :
    getInitialValues [⟨1, [⟨1, none⟩, ⟨2, none⟩, ⟨3, none⟩]⟩] 1 2 none = (1, 2) ∧
    getInitialValues [⟨1, [⟨1, none⟩, ⟨2, none⟩, ⟨3, none⟩]⟩] 0 0
      (some ⟨1, 3, 0, none⟩) = (1, 3) ∧
    getInitialValues [⟨1, [⟨1, none⟩, ⟨2, none⟩, ⟨3, none⟩]⟩] 0 0 none = (1, 1) := by
  refine ⟨?_, ?_, ?_⟩
  · exact (C1_initial_selection_priority [⟨1, [⟨1, none⟩, ⟨2, none⟩, ⟨3, none⟩]⟩]
      1 2 none ⟨1, [⟨1, none⟩, ⟨2, none⟩, ⟨3, none⟩]⟩ ⟨1, none⟩ [] [⟨2, none⟩, ⟨3, none⟩]
      rfl rfl).1 (by refine ⟨by decide, by decide, by decide⟩)
  · exact (C1_initial_selection_priority [⟨1, [⟨1, none⟩, ⟨2, none⟩, ⟨3, none⟩]⟩]
      0 0 (some ⟨1, 3, 0, none⟩) ⟨1, [⟨1, none⟩, ⟨2, none⟩, ⟨3, none⟩]⟩ ⟨1, none⟩ []
      [⟨2, none⟩, ⟨3, none⟩] rfl rfl).2.1 (by decide) ⟨1, 3, 0, none⟩ rfl (by decide)
  · exact (C1_initial_selection_priority [⟨1, [⟨1, none⟩, ⟨2, none⟩, ⟨3, none⟩]⟩]
      0 0 none ⟨1, [⟨1, none⟩, ⟨2, none⟩, ⟨3, none⟩]⟩ ⟨1, none⟩ [] [⟨2, none⟩, ⟨3, none⟩]
      rfl rfl).2.2 (by decide) (by decide)

/-! ## C2 — validity invariant of the Selection Resolver -/

/-- The first-episode fallback of `getInitialValues` validates, provided the
catalog's first season has at least one episode: `findEpisode` finds the first
season carrying the head season's number, which is the head itself. -/
theorem firstFallback_valid (s0 : ParsedSeason) (rest : List ParsedSeason)
    (e0 : ParsedEpisode) (erest : List ParsedEpisode) (he : s0.episodes = e0 :: erest) :
    isValidSelection (s0 :: rest) (firstSeasonNum (s0 :: rest))
      (firstEpisodeNum (s0 :: rest)) = true := by
  simp [isValidSelection, findEpisode, firstSeasonNum, firstEpisodeNum, he,
    List.find?_cons]

/-- C2 (amended) — the initial computation and the URL-change adoption never
set a selection absent from the catalog: `getInitialValues` returns a valid
pair whenever the catalog's first season is nonempty, and `urlSyncSelection`
preserves validity (it adopts only explicitly validated URL pairs).  The
user-driven continue-watching path is excluded: it adopts the stored pair
unvalidated (see the counterexample). -/
theorem C2_resolver_validity (seasons : List ParsedSeason)
    (s0 : ParsedSeason) (rest : List ParsedSeason)
    (e0 : ParsedEpisode) (erest : List ParsedEpisode)
    (hs : seasons = s0 :: rest) (he : s0.episodes = e0 :: erest) :
    (∀ qpSeason qpEpisode lastWatched,
      isValidSelection seasons
        (getInitialValues seasons qpSeason qpEpisode lastWatched).1
        (getInitialValues seasons qpSeason qpEpisode lastWatched).2 = true) ∧
    (∀ qpSeason qpEpisode current,
      isValidSelection seasons current.1 current.2 = true →
      isValidSelection seasons
        (urlSyncSelection seasons qpSeason qpEpisode current).1
        (urlSyncSelection seasons qpSeason qpEpisode current).2 = true) := by
  subst hs
  constructor
  · intro qpSeason qpEpisode lastWatched
    unfold getInitialValues
    by_cases hurl : (qpSeason > 0 && qpEpisode > 0 &&
        isValidSelection (s0 :: rest) qpSeason qpEpisode) = true
    · rw [if_pos hurl]
      exact (Bool.and_eq_true_iff.mp hurl).2
    · rw [if_neg hurl]
      cases lastWatched with
      | none => exact firstFallback_valid s0 rest e0 erest he
      | some lw =>
        by_cases hlw : isValidSelection (s0 :: rest) lw.season lw.episode = true
        · simp [hlw]
        · simpa [hlw] using firstFallback_valid s0 rest e0 erest he
  · intro qpSeason qpEpisode current hcur
    unfold urlSyncSelection
    by_cases hurl : (qpSeason > 0 && qpEpisode > 0 &&
        isValidSelection (s0 :: rest) qpSeason qpEpisode) = true
    · rw [if_pos hurl]
      exact (Bool.and_eq_true_iff.mp hurl).2
    · rw [if_neg hurl]
      exact hcur

/-- Witness for C2's amended theorem on the example catalog. -/
theorem C2_resolver_validity_witness :
    isValidSelection [⟨1, [⟨1, none⟩, ⟨2, none⟩, ⟨3, none⟩]⟩]
      (getInitialValues [⟨1, [⟨1, none⟩, ⟨2, none⟩, ⟨3, none⟩]⟩] 0 0
        (some ⟨5, 7, 0, none⟩)).1
      (getInitialValues [⟨1, [⟨1, none⟩, ⟨2, none⟩, ⟨3, none⟩]⟩] 0 0
        (some ⟨5, 7, 0, none⟩)).2 = true ∧
    isValidSelection [⟨1, [⟨1, none⟩, ⟨2, none⟩, ⟨3, none⟩]⟩]
      (urlSyncSelection [⟨1, [⟨1, none⟩, ⟨2, none⟩, ⟨3, none⟩]⟩] 9 9 (1, 2)).1
      (urlSyncSelection [⟨1, [⟨1, none⟩, ⟨2, none⟩, ⟨3, none⟩]⟩] 9 9 (1, 2)).2 = true := by
  constructor
  · exact (C2_resolver_validity [⟨1, [⟨1, none⟩, ⟨2, none⟩, ⟨3, none⟩]⟩]
      ⟨1, [⟨1, none⟩, ⟨2, none⟩, ⟨3, none⟩]⟩ [] ⟨1, none⟩ [⟨2, none⟩, ⟨3, none⟩]
      rfl rfl).1 0 0 (some ⟨5, 7, 0, none⟩)
  · exact (C2_resolver_validity [⟨1, [⟨1, none⟩, ⟨2, none⟩, ⟨3, none⟩]⟩]
      ⟨1, [⟨1, none⟩, ⟨2, none⟩, ⟨3, none⟩]⟩ [] ⟨1, none⟩ [⟨2, none⟩, ⟨3, none⟩]
      rfl rfl).2 9 9 (1, 2) (by decide)

/-- C2 counterexample — a user-driven run of the resolver sets an invalid
selection.  Catalog: one season with episodes 1–3; stored last-watched record:
(5, 7), absent from the catalog.  The initial selection falls through to
(1, 1); the continue-watching button is rendered (the record differs from the
current selection); activating it sets the selection to (5, 7), which is
absent from the catalog. -/
theorem C2_counterexample :
    getInitialValues [⟨1, [⟨1, none⟩, ⟨2, none⟩, ⟨3, none⟩]⟩] 0 0
      (some ⟨5, 7, 0, none⟩) = (1, 1) ∧
    continueButtonShown (some ⟨5, 7, 0, none⟩) (1, 1) = true ∧
    handleContinueWatching (some ⟨5, 7, 0, none⟩) (1, 1) = (5, 7) ∧
    isValidSelection [⟨1, [⟨1, none⟩, ⟨2, none⟩, ⟨3, none⟩]⟩] 5 7 = false := by
  refine ⟨by decide, by decide, by decide, by decide⟩

/-! ## C3 — stream-source fetches and the stream state
(EpisodePlayer.tsx:216-259, `loadStreamSources`) -/

/-- A ranked download URL (`ParsedDownloadSource`). -/
structure ParsedDownloadSource where
  url : String
  resolution : Option Int := none
  quality : Option Int := none
  deriving Repr, DecidableEq

/-- A caption track (`ParsedCaption`). -/
structure ParsedCaption where
  language : String
  url : String
  deriving Repr, DecidableEq

/-- Successful payload of `fetchStreamSources`. -/
structure StreamData where
  downloads : List ParsedDownloadSource
  captions : List ParsedCaption
  deriving Repr, DecidableEq

/-- `StreamState` (EpisodePlayer.tsx:26-30). -/
structure StreamState where
  downloads : List ParsedDownloadSource
  captions : List ParsedCaption
  playerUrl : Option String
  deriving Repr, DecidableEq

/-- The continuation of `loadStreamSources` that runs when the fetch for
`(seasonNum, episodeNum)` settles (EpisodePlayer.tsx:230-248): a non-ok
result, a thrown error (`none`) and a result with zero downloads all store
empty sources; a result with downloads stores them.  In every branch the
captured fallback URL is written.  The code performs no comparison of the
request against the selection current at resolution time. -/
def applyStreamResult (result : Option StreamData) (fallbackUrl : Option String) :
    StreamState :=
  match result with
  | some data =>
    if data.downloads.length > 0 then
      ⟨data.downloads, data.captions, fallbackUrl⟩
    else
      ⟨[], [], fallbackUrl⟩
  | none => ⟨[], [], fallbackUrl⟩

/-- The EpisodePlayer state relevant to fetch resolution. -/
structure EpisodePlayerState where
  selection : Int × Int
  streamState : StreamState
  deriving Repr, DecidableEq

/-- Events acting on that state: a user selection change
(EpisodePlayer.tsx:281-293) and the resolution of an in-flight fetch that was
started for the pair `req` with captured fallback URL `fallbackUrl`
(EpisodePlayer.tsx:222-251). -/
inductive PlayerEvent where
  | select (seasonNum episodeNum : Int)
  | resolveFetch (req : Int × Int) (fallbackUrl : Option String) (result : Option StreamData)
  deriving Repr, DecidableEq

/-- One step of the player: `select` updates the selection; `resolveFetch`
calls `setStreamState` with the settled result, unconditionally — the request
pair `req` is ignored, exactly as in the source. -/
def playerStep (st : EpisodePlayerState) : PlayerEvent → EpisodePlayerState
  | .select seasonNum episodeNum => { st with selection := (seasonNum, episodeNum) }
  | .resolveFetch _req fallbackUrl result =>
    { st with streamState := applyStreamResult result fallbackUrl }

/-- A run of the player over a sequence of events. -/
def playerRun (st : EpisodePlayerState) (evs : List PlayerEvent) : EpisodePlayerState :=
  evs.foldl playerStep st

/-- C3 (amended) — the result of a fetch is applied to the stream state
unconditionally when it resolves: even a stale fetch (one whose request pair
differs from the selection current at resolution time) overwrites the stream
state, and the resolution step behaves identically whether the request is
stale or matches the current selection.  The code has no staleness guard. -/
theorem C3_stale_fetch_applied (st : EpisodePlayerState) (req : Int × Int)
    (fallbackUrl : Option String) (result : Option StreamData)
    (_hstale : req ≠ st.selection) :
    (playerStep st (.resolveFetch req fallbackUrl result)).streamState =
      applyStreamResult result fallbackUrl ∧
    playerStep st (.resolveFetch req fallbackUrl result) =
      playerStep st (.resolveFetch st.selection fallbackUrl result) := by
  exact ⟨rfl, rfl⟩

/-- Witness for C3's amended theorem: a stale resolution (request (1,1),
current selection (1,2)) overwrites the stream state with its own payload. -/
theorem C3_stale_fetch_applied_witness :
    (playerStep ⟨(1, 2), ⟨[], [], none⟩⟩
      (.resolveFetch (1, 1) (some "u1") (some ⟨[⟨"d1", none, none⟩], []⟩))).streamState =
      ⟨[⟨"d1", none, none⟩], [], some "u1"⟩ := by
  have h := C3_stale_fetch_applied ⟨(1, 2), ⟨[], [], none⟩⟩ (1, 1) (some "u1")
    (some ⟨[⟨"d1", none, none⟩], []⟩) (by decide)
  exact h.1.trans (by decide)

/-- C3 counterexample — concrete interleaving in which the claim fails.
Selection moves from (1,1) to (1,2); the fetch for (1,2) resolves with
download `d2`; then the stale fetch for (1,1) resolves with download `d1` and
fallback URL `u1`.  The stale result is not discarded: it overwrites the
stream state associated with the new selection (downloads become `[d1]`, the
player URL becomes `u1`) while the selection is still (1,2). -/
theorem C3_counterexample :
    (playerRun ⟨(1, 1), ⟨[], [], none⟩⟩
        [.select 1 2,
         .resolveFetch (1, 2) (some "u2") (some ⟨[⟨"d2", none, none⟩], []⟩)]).streamState =
      ⟨[⟨"d2", none, none⟩], [], some "u2"⟩ ∧
    playerRun ⟨(1, 1), ⟨[], [], none⟩⟩
        [.select 1 2,
         .resolveFetch (1, 2) (some "u2") (some ⟨[⟨"d2", none, none⟩], []⟩),
         .resolveFetch (1, 1) (some "u1") (some ⟨[⟨"d1", none, none⟩], []⟩)] =
      ⟨(1, 2), ⟨[⟨"d1", none, none⟩], [], some "u1"⟩⟩ := by
  refine ⟨by decide, by decide⟩

/-! ## C4, C5 — playback mode state machine
(src/components/content/VideoPlayer.tsx, `VideoPlayerInner`) -/

/-- `PlaybackMode` (VideoPlayer.tsx:28). -/
inductive PlaybackMode where
  | direct
  | embedSandboxed
  | external
  deriving Repr, DecidableEq

/-- The per-selection environment of `VideoPlayerInner` once the stream fetch
has settled: whether the fetch returned at least one download URL
(VideoPlayer.tsx:591) and whether an embed URL exists (VideoPlayer.tsx:593). -/
structure VideoPlayerCtx where
  hasDirectSources : Bool
  hasEmbed : Bool
  deriving Repr, DecidableEq

/-- The mutable state of `VideoPlayerInner` (VideoPlayer.tsx:577-578). -/
structure VideoPlayerState where
  mode : PlaybackMode
  directFailed : Bool
  deriving Repr, DecidableEq

/-- The two mode effects (VideoPlayer.tsx:596-606), applied after any state
change once loading has settled: switch to the sandboxed embed when no direct
sources exist, and switch to it when direct playback has failed, in both cases
only when an embed URL exists. -/
def applyModeEffects (ctx : VideoPlayerCtx) (st : VideoPlayerState) : VideoPlayerState :=
  let st1 :=
    if !ctx.hasDirectSources && ctx.hasEmbed then
      { st with mode := .embedSandboxed }
    else
      st
  if st1.directFailed && ctx.hasEmbed then
    { st1 with mode := .embedSandboxed }
  else
    st1

/-- Events on the playback machine: the video element reports an error, or the
user activates one of the mode buttons. -/
inductive VPEvent where
  | videoError
  | userSetMode (m : PlaybackMode)
  deriving Repr, DecidableEq

/-- Whether the mode selector row is rendered (VideoPlayer.tsx:656-657). -/
def modeSelectorShown (ctx : VideoPlayerCtx) (st : VideoPlayerState) : Bool :=
  (ctx.hasDirectSources || ctx.hasEmbed) &&
    (ctx.hasDirectSources != !ctx.hasEmbed || st.directFailed)

/-- Whether an event can occur in a given state, read off the render guards:
a video error requires the direct player to be rendered (VideoPlayer.tsx:668);
the "Safe Player" button is rendered only while direct sources exist and
direct has not failed (VideoPlayer.tsx:660, `hasDirectSources && !directFailed`);
the sandboxed-embed and external buttons require an embed URL
(VideoPlayer.tsx:301-326, 684-701). -/
def vpEventEnabled (ctx : VideoPlayerCtx) (st : VideoPlayerState) : VPEvent → Bool
  | .videoError =>
    st.mode == .direct && ctx.hasDirectSources && !st.directFailed
  | .userSetMode .direct =>
    modeSelectorShown ctx st && ctx.hasDirectSources && !st.directFailed
  | .userSetMode .embedSandboxed => ctx.hasEmbed
  | .userSetMode .external => ctx.hasEmbed

/-- The event handlers: `handleDirectError` (VideoPlayer.tsx:608-610) sets the
failure flag; `handleModeChange` (VideoPlayer.tsx:612-624) opens a new tab and
leaves the state unchanged for `external`, and otherwise sets the mode,
clearing the failure flag when the user re-selects direct. -/
def vpHandle (st : VideoPlayerState) : VPEvent → VideoPlayerState
  | .videoError => { st with directFailed := true }
  | .userSetMode .external => st
  | .userSetMode .direct => { mode := .direct, directFailed := false }
  | .userSetMode .embedSandboxed => { st with mode := .embedSandboxed }

/-- One step of the machine: an enabled event is handled and the mode effects
re-run; a disabled event cannot occur, leaving the state unchanged. -/
def vpStep (ctx : VideoPlayerCtx) (st : VideoPlayerState) (e : VPEvent) :
    VideoPlayerState :=
  if vpEventEnabled ctx st e then applyModeEffects ctx (vpHandle st e) else st

/-- A run of the playback machine over a sequence of events. -/
def vpRun (ctx : VideoPlayerCtx) (st : VideoPlayerState) (evs : List VPEvent) :
    VideoPlayerState :=
  evs.foldl (vpStep ctx) st

/-- Once direct playback has failed, the failure flag stays set and the mode
never returns to direct, whatever enabled events follow. -/
theorem vpRun_directFailed_invariant (ctx : VideoPlayerCtx)
    (evs : List VPEvent) :
    ∀ st : VideoPlayerState, st.directFailed = true → st.mode ≠ .direct →
      (vpRun ctx st evs).directFailed = true ∧ (vpRun ctx st evs).mode ≠ .direct := by
  induction evs with
  | nil => intro st h1 h2; exact ⟨h1, h2⟩
  | cons e rest ih =>
    intro st h1 h2
    have hstep : (vpStep ctx st e).directFailed = true ∧ (vpStep ctx st e).mode ≠ .direct := by
      cases e with
      | videoError =>
        have : vpEventEnabled ctx st .videoError = false := by
          simp [vpEventEnabled, h1]
        simp [vpStep, this]
        exact ⟨h1, h2⟩
      | userSetMode m =>
        cases m with
        | direct =>
          have : vpEventEnabled ctx st (.userSetMode .direct) = false := by
            simp [vpEventEnabled, h1]
          simp [vpStep, this]
          exact ⟨h1, h2⟩
        | embedSandboxed =>
          by_cases hen : vpEventEnabled ctx st (.userSetMode .embedSandboxed) = true
          · simp only [vpStep, hen, if_pos]
            unfold applyModeEffects vpHandle
            constructor
            · dsimp only
              split <;> · split <;> simp [h1]
            · dsimp only
              split <;> · split <;> simp
          · simp only [vpStep, hen, if_neg, Bool.not_eq_true] at *
            simp [hen]
            exact ⟨h1, h2⟩
        | external =>
          by_cases hen : vpEventEnabled ctx st (.userSetMode .external) = true
          · simp only [vpStep, hen, if_pos]
            unfold applyModeEffects vpHandle
            constructor
            · dsimp only
              split <;> · split <;> simp [h1]
            · dsimp only
              have hm : st.mode ≠ PlaybackMode.direct := h2
              split
              · split <;> simp
              · split
                · simp
                · simpa using hm
          · simp only [vpStep] at *
            simp [hen]
            exact ⟨h1, h2⟩
    exact ih (vpStep ctx st e) hstep.1 hstep.2

/-- C4 — with direct sources and an embed URL available, a video-element error
in direct mode transitions the machine to the sandboxed embed; afterwards, for
every sequence of events, the failure flag stays set, the mode never returns
to direct (neither automatically nor through the mode selector, whose direct
button is no longer rendered), and a further video error is a no-op — so the
automatic transition fires at most once per selection. -/
theorem C4_direct_failure_one_way (ctx : VideoPlayerCtx)
    (hDS : ctx.hasDirectSources = true) (hE : ctx.hasEmbed = true)
    (evs : List VPEvent) :
    vpStep ctx ⟨.direct, false⟩ .videoError = ⟨.embedSandboxed, true⟩ ∧
    (vpRun ctx ⟨.embedSandboxed, true⟩ evs).mode ≠ .direct ∧
    (vpRun ctx ⟨.embedSandboxed, true⟩ evs).directFailed = true ∧
    vpStep ctx (vpRun ctx ⟨.embedSandboxed, true⟩ evs) .videoError =
      vpRun ctx ⟨.embedSandboxed, true⟩ evs := by
  have hinv := vpRun_directFailed_invariant ctx evs ⟨.embedSandboxed, true⟩
    rfl (by simp)
  refine ⟨?_, hinv.2, hinv.1, ?_⟩
  · simp [vpStep, vpEventEnabled, vpHandle, applyModeEffects, hDS, hE]
  · have hdis : vpEventEnabled ctx (vpRun ctx ⟨.embedSandboxed, true⟩ evs)
        .videoError = false := by
      simp [vpEventEnabled, hinv.1]
    simp [vpStep, hdis]

/-- Witness for C4: sources and embed both available; after the failure the
user tries the selector and a second error — the machine stays out of direct
mode. -/
theorem C4_direct_failure_one_way_witness :
    vpStep ⟨true, true⟩ ⟨.direct, false⟩ .videoError = ⟨.embedSandboxed, true⟩ ∧
    (vpRun ⟨true, true⟩ ⟨.embedSandboxed, true⟩
      [.userSetMode .direct, .videoError, .userSetMode .embedSandboxed]).mode ≠ .direct := by
  have h := C4_direct_failure_one_way ⟨true, true⟩ rfl rfl
    [.userSetMode .direct, .videoError, .userSetMode .embedSandboxed]
  exact ⟨h.1, h.2.1⟩

/-- `hasDirectSources` as computed from the settled fetch result
(VideoPlayer.tsx:591, `(streamData?.downloads?.length ?? 0) > 0`); `none` is a
failed fetch. -/
def hasDirectSourcesOf (fetchResult : Option StreamData) : Bool :=
  match fetchResult with
  | some data => data.downloads.length > 0
  | none => false

/-- The rendered surface (VideoPlayer.tsx:629-703 guards, after loading):
"Video not available" when neither sources nor embed exist; the direct video
element when the mode is direct with sources and no failure; the sandboxed
iframe when the mode is the sandboxed embed and an embed URL exists; otherwise
the fallback buttons (or nothing without an embed URL). -/
inductive RenderSurface where
  | unavailable
  | directPlayer
  | sandboxedEmbedPlayer
  | fallbackButtons
  | nothing
  deriving Repr, DecidableEq

/-- Render dispatch of `VideoPlayerInner` once loading has settled. -/
def renderSurface (ctx : VideoPlayerCtx) (st : VideoPlayerState) : RenderSurface :=
  if !ctx.hasDirectSources && !ctx.hasEmbed then
    .unavailable
  else if st.mode == .direct && ctx.hasDirectSources && !st.directFailed then
    .directPlayer
  else if st.mode == .embedSandboxed && ctx.hasEmbed then
    .sandboxedEmbedPlayer
  else if ctx.hasEmbed then
    .fallbackButtons
  else
    .nothing

/-- The state after mount once the fetch has settled: `useState("direct")`
with a cleared failure flag (VideoPlayer.tsx:577-578), then the mode effects. -/
def initialVideoPlayerState (ctx : VideoPlayerCtx) : VideoPlayerState :=
  applyModeEffects ctx ⟨.direct, false⟩

/-- C5 — the initial mode is direct exactly when the fetch returned at least
one download URL; otherwise the sandboxed embed when an embed URL exists;
otherwise the "video not available" placeholder; and a successful fetch with
zero downloads yields the same `hasDirectSources` and the same initial
surface as a failed fetch. -/
theorem C5_initial_mode_selection (fetchResult : Option StreamData) (hasEmbed : Bool) :
    ((initialVideoPlayerState ⟨hasDirectSourcesOf fetchResult, hasEmbed⟩).mode = .direct
        ∧ renderSurface ⟨hasDirectSourcesOf fetchResult, hasEmbed⟩
            (initialVideoPlayerState ⟨hasDirectSourcesOf fetchResult, hasEmbed⟩) =
          .directPlayer
      ↔ hasDirectSourcesOf fetchResult = true) ∧
    (hasDirectSourcesOf fetchResult = false → hasEmbed = true →
      (initialVideoPlayerState ⟨hasDirectSourcesOf fetchResult, hasEmbed⟩).mode =
          .embedSandboxed ∧
        renderSurface ⟨hasDirectSourcesOf fetchResult, hasEmbed⟩
            (initialVideoPlayerState ⟨hasDirectSourcesOf fetchResult, hasEmbed⟩) =
          .sandboxedEmbedPlayer) ∧
    (hasDirectSourcesOf fetchResult = false → hasEmbed = false →
      renderSurface ⟨hasDirectSourcesOf fetchResult, hasEmbed⟩
          (initialVideoPlayerState ⟨hasDirectSourcesOf fetchResult, hasEmbed⟩) =
        .unavailable) ∧
    (∀ captions, hasDirectSourcesOf (some ⟨[], captions⟩) = hasDirectSourcesOf none ∧
      initialVideoPlayerState ⟨hasDirectSourcesOf (some ⟨[], captions⟩), hasEmbed⟩ =
        initialVideoPlayerState ⟨hasDirectSourcesOf none, hasEmbed⟩) := by
  cases hds : hasDirectSourcesOf fetchResult <;> cases hasEmbed <;>
    simp [initialVideoPlayerState, applyModeEffects, renderSurface, hasDirectSourcesOf]

/-- Witness for C5: a fetch with one download yields direct; an empty fetch
with an embed URL yields the sandboxed embed; an empty fetch without an embed
URL yields the placeholder. -/
theorem C5_initial_mode_selection_witness :
    (initialVideoPlayerState
        ⟨hasDirectSourcesOf (some ⟨[⟨"d1", none, none⟩], []⟩), true⟩).mode = .direct ∧
    (initialVideoPlayerState ⟨hasDirectSourcesOf none, true⟩).mode = .embedSandboxed ∧
    renderSurface ⟨hasDirectSourcesOf none, false⟩
        (initialVideoPlayerState ⟨hasDirectSourcesOf none, false⟩) = .unavailable := by
  refine ⟨?_, ?_, ?_⟩
  · exact ((C5_initial_mode_selection (some ⟨[⟨"d1", none, none⟩], []⟩) true).1.mpr
      (by decide)).1
  · exact ((C5_initial_mode_selection none true).2.1 (by decide) rfl).1
  · exact (C5_initial_mode_selection none false).2.2.1 (by decide) rfl

/-! ## C6, C7 — last-watched persistence (src/hooks/useLastWatched.ts:
`getLastWatched`, `setLastWatched`) -/

/-- A JSON value, the result of a successful `JSON.parse`.  Numeric leaves are
embedded as `Int` (the stored records only ever hold integral numbers:
ordinals, epoch-millisecond timestamps, second offsets). -/
inductive JValue where
  | null
  | bool (b : Bool)
  | num (n : Int)
  | str (s : String)
  | arr (elems : List JValue)
  | obj (fields : List (String × JValue))

/-- A raw string stored in `localStorage`, abstracted by what `JSON.parse`
does to it: either it throws (`malformed`) or yields a JSON value. -/
inductive RawStored where
  | malformed
  | json (v : JValue)

/-- The browser-local storage: its entries, and whether writes currently fail
(quota exceeded / storage disabled). -/
structure Store where
  entries : List (String × RawStored)
  quotaFull : Bool

/-- `localStorage.getItem`: the value under the key, or `null`. -/
def getItem (store : Store) (key : String) : Option RawStored :=
  store.entries.lookup key

/-- `localStorage.setItem`: throws when storage is unavailable or over quota,
otherwise replaces the value under the key. -/
def setItem (store : Store) (key : String) (v : RawStored) : Except Unit Store :=
  if store.quotaFull then
    .error ()
  else
    .ok { store with entries := (key, v) :: store.entries.filter (fun p => p.1 != key) }

/-- `getStorageKey` (useLastWatched.ts:18-20). -/
def getStorageKey (titleKey : String) : String :=
  "noirflix_last_watched:" ++ titleKey

/-- `JSON.parse` on a stored raw string: throws on malformed input. -/
def jsonParse (raw : RawStored) : Except Unit JValue :=
  match raw with
  | .malformed => .error ()
  | .json v => .ok v

/-- Property lookup on a parsed JSON object (`"k" in parsed` plus the field
read). -/
def jsGet (fields : List (String × JValue)) (key : String) : Option JValue :=
  fields.lookup key

/-- The value of an object field when it is present and a number
(`"k" in parsed && typeof parsed.k === "number"`). -/
def asNum (v : Option JValue) : Option Int :=
  match v with
  | some (.num n) => some n
  | _ => none

/-- The shape validation and cast of `getLastWatched` (useLastWatched.ts:36-49):
the parsed value must be a non-null object whose `season`, `episode` and
`updatedAt` fields are all present and numbers; the record is the object
itself (its numeric `playbackTime` view is the only other field the program
reads). -/
def validateLastWatched (v : JValue) : Option LastWatchedData :=
  match v with
  | .obj fields =>
    match asNum (jsGet fields "season"), asNum (jsGet fields "episode"),
        asNum (jsGet fields "updatedAt") with
    | some s, some e, some u =>
      some { season := s, episode := e, updatedAt := u,
             playbackTime := asNum (jsGet fields "playbackTime") }
    | _, _, _ => none
  | _ => none

/-- `getLastWatched` (useLastWatched.ts:25-53): read, parse and validate;
every failure path — missing key, `JSON.parse` throwing (caught), shape
mismatch — returns `null`. -/
def getLastWatched (store : Store) (titleKey : String) : Option LastWatchedData :=
  match getItem store (getStorageKey titleKey) with
  | none => none
  | some raw =>
    match jsonParse raw with
    | .error _ => none
    | .ok v => validateLastWatched v

/-- `JSON.stringify({...data, updatedAt: Date.now()})` in `setLastWatched`
(useLastWatched.ts:66-69): an `undefined` playback offset is omitted from the
serialized object. -/
def serializeLastWatched (season episode : Int) (playbackTime : Option Int)
    (now : Int) : JValue :=
  .obj ([("season", .num season), ("episode", .num episode)] ++
    (match playbackTime with
     | some t => [("playbackTime", JValue.num t)]
     | none => []) ++
    [("updatedAt", .num now)])

/-- `setLastWatched` (useLastWatched.ts:58-76): stamp the current time, write
synchronously, and catch any storage error, leaving the store unchanged.  The
`Except` result models JavaScript exception propagation: the surrounding
try/catch makes the function total. -/
def setLastWatched (store : Store) (titleKey : String) (season episode : Int)
    (playbackTime : Option Int) (now : Int) : Except Unit Store :=
  match setItem store (getStorageKey titleKey)
      (.json (serializeLastWatched season episode playbackTime now)) with
  | .ok s => .ok s
  | .error _ => .ok store

/-- C6 — `setLastWatched` never propagates an error: for every store, title
key, input pair, optional playback offset and current time it returns
normally; when the write succeeds the stored record carries `now` as its
last-update timestamp (observed through `getLastWatched`), and when the write
fails the operation is a no-op on the store. -/
theorem C6_setLastWatched_stamps_and_never_throws (store : Store)
    (titleKey : String) (season episode : Int) (playbackTime : Option Int)
    (now : Int) :
    (∃ st', setLastWatched store titleKey season episode playbackTime now = .ok st') ∧
    (store.quotaFull = false →
      ∀ st', setLastWatched store titleKey season episode playbackTime now = .ok st' →
        getLastWatched st' titleKey =
          some ⟨season, episode, now, playbackTime⟩) ∧
    (store.quotaFull = true →
      setLastWatched store titleKey season episode playbackTime now = .ok store) := by
  refine ⟨?_, ?_, ?_⟩
  · unfold setLastWatched setItem
    by_cases hq : store.quotaFull = true
    · rw [if_pos hq]
      exact ⟨store, rfl⟩
    · rw [if_neg hq]
      exact ⟨_, rfl⟩
  · intro hq st' hset
    unfold setLastWatched setItem at hset
    rw [if_neg (by simp [hq])] at hset
    have hst : st' = { store with
        entries := (getStorageKey titleKey,
          RawStored.json (serializeLastWatched season episode playbackTime now)) ::
            store.entries.filter (fun p => p.1 != getStorageKey titleKey) } := by
      cases hset
      rfl
    subst hst
    unfold getLastWatched getItem jsonParse
    simp only [List.lookup, beq_self_eq_true]
    cases playbackTime <;>
      simp [validateLastWatched, serializeLastWatched, jsGet, asNum, List.lookup]
  · intro hq
    unfold setLastWatched setItem
    rw [if_pos hq]

/-- Witness for C6 at a concrete store, on both the writable and the
quota-full branches. -/
theorem C6_setLastWatched_stamps_and_never_throws_witness :
    (∀ st', setLastWatched ⟨[], false⟩ "t" 2 5 (some 42) 1000 = .ok st' →
      getLastWatched st' "t" = some ⟨2, 5, 1000, some 42⟩) ∧
    setLastWatched ⟨[], true⟩ "t" 2 5 none 1000 = .ok ⟨[], true⟩ := by
  constructor
  · exact (C6_setLastWatched_stamps_and_never_throws ⟨[], false⟩ "t" 2 5
      (some 42) 1000).2.1 rfl
  · exact (C6_setLastWatched_stamps_and_never_throws ⟨[], true⟩ "t" 2 5
      none 1000).2.2 rfl

/-- The shape condition of C7 as a proposition: the parsed JSON is an object
whose `season`, `episode` and `updatedAt` fields are all numbers. -/
def lastWatchedShape (v : JValue) : Prop :=
  ∃ fields s e u, v = .obj fields ∧
    asNum (jsGet fields "season") = some s ∧
    asNum (jsGet fields "episode") = some e ∧
    asNum (jsGet fields "updatedAt") = some u

/-- C7 — `getLastWatched` returns `null` on a missing key, on malformed JSON,
and on any parsed value failing the shape check; it returns a record exactly
when the stored JSON is an object with numeric `season`, `episode` and
`updatedAt`, and that record is fully populated from those fields — never
partially. -/
theorem C7_getLastWatched_total_and_validated (store : Store) (titleKey : String) :
    (getItem store (getStorageKey titleKey) = none →
      getLastWatched store titleKey = none) ∧
    (getItem store (getStorageKey titleKey) = some .malformed →
      getLastWatched store titleKey = none) ∧
    (∀ v, getItem store (getStorageKey titleKey) = some (.json v) →
      ((∃ rec, getLastWatched store titleKey = some rec) ↔ lastWatchedShape v)) ∧
    (∀ rec, getLastWatched store titleKey = some rec →
      ∃ fields, getItem store (getStorageKey titleKey) = some (.json (.obj fields)) ∧
        asNum (jsGet fields "season") = some rec.season ∧
        asNum (jsGet fields "episode") = some rec.episode ∧
        asNum (jsGet fields "updatedAt") = some rec.updatedAt) := by
  refine ⟨?_, ?_, ?_, ?_⟩
  · intro h
    unfold getLastWatched
    rw [h]
  · intro h
    unfold getLastWatched
    rw [h]
    rfl
  · intro v h
    unfold getLastWatched
    rw [h]
    unfold jsonParse
    constructor
    · rintro ⟨rec, hrec⟩
      cases v with
      | obj fields =>
        simp only [validateLastWatched] at hrec
        rcases hs : asNum (jsGet fields "season") with _ | s <;> rw [hs] at hrec
        · exact absurd hrec (by simp)
        rcases he : asNum (jsGet fields "episode") with _ | e <;> rw [he] at hrec
        · exact absurd hrec (by simp)
        rcases hu : asNum (jsGet fields "updatedAt") with _ | u <;> rw [hu] at hrec
        · exact absurd hrec (by simp)
        exact ⟨fields, s, e, u, rfl, hs, he, hu⟩
      | null => exact absurd hrec (by simp [validateLastWatched])
      | bool b => exact absurd hrec (by simp [validateLastWatched])
      | num n => exact absurd hrec (by simp [validateLastWatched])
      | str s => exact absurd hrec (by simp [validateLastWatched])
      | arr elems => exact absurd hrec (by simp [validateLastWatched])
    · rintro ⟨fields, s, e, u, hv, hs, he, hu⟩
      subst hv
      refine ⟨⟨s, e, u, asNum (jsGet fields "playbackTime")⟩, ?_⟩
      simp [validateLastWatched, hs, he, hu]
  · intro rec hrec
    unfold getLastWatched at hrec
    rcases hit : getItem store (getStorageKey titleKey) with _ | raw <;>
      rw [hit] at hrec
    · exact absurd hrec (by simp)
    cases raw with
    | malformed => exact absurd hrec (by simp [jsonParse])
    | json v =>
      simp only [jsonParse] at hrec
      cases v with
      | obj fields =>
        simp only [validateLastWatched] at hrec
        rcases hs : asNum (jsGet fields "season") with _ | s <;> rw [hs] at hrec
        · exact absurd hrec (by simp)
        rcases he : asNum (jsGet fields "episode") with _ | e <;> rw [he] at hrec
        · exact absurd hrec (by simp)
        rcases hu : asNum (jsGet fields "updatedAt") with _ | u <;> rw [hu] at hrec
        · exact absurd hrec (by simp)
        refine ⟨fields, rfl, ?_, ?_, ?_⟩ <;>
          · cases hrec
            assumption
      | null => exact absurd hrec (by simp [validateLastWatched])
      | bool b => exact absurd hrec (by simp [validateLastWatched])
      | num n => exact absurd hrec (by simp [validateLastWatched])
      | str s => exact absurd hrec (by simp [validateLastWatched])
      | arr elems => exact absurd hrec (by simp [validateLastWatched])

/-- Witness for C7: a missing key, a malformed value, a shape-mismatched
object (`updatedAt` is a string) and a well-shaped object, each read back
through the theorem. -/
theorem C7_getLastWatched_total_and_validated_witness :
    getLastWatched ⟨[], false⟩ "t" = none ∧
    getLastWatched ⟨[("noirflix_last_watched:t", .malformed)], false⟩ "t" = none ∧
    ¬ (∃ rec, getLastWatched
        ⟨[("noirflix_last_watched:t",
           .json (.obj [("season", .num 1), ("episode", .num 2),
             ("updatedAt", .str "yesterday")]))], false⟩ "t" = some rec) ∧
    (∃ rec, getLastWatched
        ⟨[("noirflix_last_watched:t",
           .json (.obj [("season", .num 1), ("episode", .num 2),
             ("updatedAt", .num 99)]))], false⟩ "t" = some rec) := by
  refine ⟨?_, ?_, ?_, ?_⟩
  · exact (C7_getLastWatched_total_and_validated ⟨[], false⟩ "t").1 rfl
  · exact (C7_getLastWatched_total_and_validated
      ⟨[("noirflix_last_watched:t", .malformed)], false⟩ "t").2.1 rfl
  · intro hex
    have h := ((C7_getLastWatched_total_and_validated
      ⟨[("noirflix_last_watched:t",
         .json (.obj [("season", .num 1), ("episode", .num 2),
           ("updatedAt", .str "yesterday")]))], false⟩ "t").2.2.1
      (.obj [("season", .num 1), ("episode", .num 2),
        ("updatedAt", .str "yesterday")]) rfl).mp hex
    rcases h with ⟨fields, s, e, u, hv, hs, he, hu⟩
    cases hv
    simp [asNum, jsGet, List.lookup] at hu
  · exact ((C7_getLastWatched_total_and_validated
      ⟨[("noirflix_last_watched:t",
         .json (.obj [("season", .num 1), ("episode", .num 2),
           ("updatedAt", .num 99)]))], false⟩ "t").2.2.1
      (.obj [("season", .num 1), ("episode", .num 2), ("updatedAt", .num 99)])
      rfl).mpr ⟨[("season", .num 1), ("episode", .num 2), ("updatedAt", .num 99)],
        1, 2, 99, rfl, rfl, rfl, rfl⟩

/-! ## C9 — continue-watching aggregation (src/hooks/useWatchProgress.ts) -/

/-- A watch-progress record (`WatchProgress`, useWatchProgress.ts:7-16). -/
structure WatchProgress where
  percentage : Int
  timestamp : Int
  currentTime : Option Int := none
  duration : Option Int := none
  deriving Repr, DecidableEq

/-- An entry returned by `getContinueWatching` (useWatchProgress.ts:162-167). -/
structure ContinueWatchingEntry where
  detailPath : String
  progress : WatchProgress
  season : Option Int := none
  episode : Option Int := none
  deriving Repr, DecidableEq

/-- `STORAGE_KEY_PREFIX` (useWatchProgress.ts:5).  Renamed here because the
original identifier is unavailable in this development. -/
def STORAGE_KEY_ROOT : String := "noirflix:progress"

/-- `buildKey` (useWatchProgress.ts:26-35). -/
def buildKey (detailPath : String) (season episode : Option Int) : String :=
  match season, episode with
  | some s, some e =>
    STORAGE_KEY_ROOT ++ ":" ++ detailPath ++ ":" ++ toString s ++ ":" ++ toString e
  | _, _ => STORAGE_KEY_ROOT ++ ":" ++ detailPath

/-- `String.prototype.replace` with a string pattern and empty replacement:
remove the first occurrence of the pattern. -/
def removeFirstOccurrence (pat : List Char) : List Char → List Char
  | [] => []
  | c :: rest =>
    if pat.isPrefixOf (c :: rest) then (c :: rest).drop pat.length
    else c :: removeFirstOccurrence pat rest

/-- `String.prototype.split` with a one-element separator, over any token
type (characters here, bytes in the URL model below). -/
def splitOnSep {α : Type} [DecidableEq α] (sep : α) : List α → List (List α)
  | [] => [[]]
  | c :: rest =>
    if c = sep then [] :: splitOnSep sep rest
    else
      match splitOnSep sep rest with
      | [] => [[c]]
      | h :: t => (c :: h) :: t

/-- `parseInt(s, 10)`: skip leading spaces and an optional sign, read a
decimal digit run.  `none` stands for `NaN` (no digits). -/
def jsParseInt (s : List Char) : Option Int :=
  let t := s.dropWhile (fun c => c = ' ')
  let signed : Bool × List Char :=
    match t with
    | '-' :: r => (true, r)
    | '+' :: r => (false, r)
    | _ => (false, t)
  let digits := signed.2.takeWhile Char.isDigit
  if digits.isEmpty then
    none
  else
    let n : Nat := digits.foldl (fun acc c => 10 * acc + (c.toNat - 48)) 0
    some (if signed.1 then -(n : Int) else (n : Int))

/-- The map step of `getContinueWatching` (useWatchProgress.ts:170-178): strip
the key root, split on `:`, and read `detailPath`, `season` and `episode` back
out of the key.  A falsy (empty) part yields no season/episode; `parseInt`
yielding `NaN` is conflated with the absent case, which no caller observes. -/
def parseContinueEntry (key : String) (value : WatchProgress) : ContinueWatchingEntry :=
  let stripped := removeFirstOccurrence (STORAGE_KEY_ROOT ++ ":").toList key.toList
  let parts := splitOnSep ':' stripped
  { detailPath := String.mk (parts.headD []),
    progress := value,
    season :=
      match parts[1]? with
      | some p => if p.isEmpty then none else jsParseInt p
      | none => none,
    episode :=
      match parts[2]? with
      | some p => if p.isEmpty then none else jsParseInt p
      | none => none }

/-- The sort order of `getContinueWatching` (useWatchProgress.ts:179,
`(a, b) => b.progress.timestamp - a.progress.timestamp`): newest first. -/
def contRel (a b : ContinueWatchingEntry) : Prop :=
  b.progress.timestamp ≤ a.progress.timestamp

instance : DecidableRel contRel := fun a b =>
  inferInstanceAs (Decidable (b.progress.timestamp ≤ a.progress.timestamp))

instance : IsTotal ContinueWatchingEntry contRel :=
  ⟨fun a b => le_total b.progress.timestamp a.progress.timestamp⟩

instance : IsTrans ContinueWatchingEntry contRel :=
  ⟨fun _ _ _ hab hbc => le_trans hbc hab⟩

/-- `getContinueWatching` (useWatchProgress.ts:162-182): filter the stored map
to strictly-in-progress records, parse the keys, sort newest first (a stable
comparator sort, embedded as insertion sort), and keep at most 20 entries. -/
def getContinueWatching (progressMap : List (String × WatchProgress)) :
    List ContinueWatchingEntry :=
  ((((progressMap.filter
        (fun p => 0 < p.2.percentage && p.2.percentage < 90)).map
      (fun p => parseContinueEntry p.1 p.2)).insertionSort contRel).take 20)

/-- C9 — for every stored progress map, `getContinueWatching` returns at most
20 entries, every returned entry's percentage lies strictly between 0 and 90,
and the entries are sorted by last-update timestamp, newest first. -/
theorem C9_continue_watching_shape (progressMap : List (String × WatchProgress)) :
    (getContinueWatching progressMap).length ≤ 20 ∧
    (∀ entry ∈ getContinueWatching progressMap,
      0 < entry.progress.percentage ∧ entry.progress.percentage < 90) ∧
    List.Sorted contRel (getContinueWatching progressMap) := by
  refine ⟨?_, ?_, ?_⟩
  · exact List.length_take_le 20 _
  · intro entry hmem
    have hsort := List.mem_of_mem_take hmem
    have hperm := List.perm_insertionSort contRel
      ((progressMap.filter (fun p => 0 < p.2.percentage && p.2.percentage < 90)).map
        (fun p => parseContinueEntry p.1 p.2))
    have hmap : entry ∈ (progressMap.filter
        (fun p => 0 < p.2.percentage && p.2.percentage < 90)).map
        (fun p => parseContinueEntry p.1 p.2) := hperm.mem_iff.mp hsort
    rcases List.mem_map.mp hmap with ⟨p, hp, hpe⟩
    have hpred := (List.mem_filter.mp hp).2
    have h1 : (0 < p.2.percentage ∧ p.2.percentage < 90) := by
      simpa [decide_eq_true_eq] using hpred
    have hprog : entry.progress = p.2 := by
      rw [← hpe]
      rfl
    rw [hprog]
    exact h1
  · exact List.Pairwise.sublist (List.take_sublist 20 _)
      (List.sorted_insertionSort contRel _)

/-- Witness for C9: a map with one in-progress record and one finished record
yields the single in-progress entry, whose percentage the theorem bounds. -/
theorem C9_continue_watching_shape_witness :
    parseContinueEntry "noirflix:progress:movie-x:1:2" ⟨50, 5, none, none⟩ ∈
      getContinueWatching
        [("noirflix:progress:movie-x:1:2", ⟨50, 5, none, none⟩),
         ("noirflix:progress:movie-y", ⟨95, 9, none, none⟩)] ∧
    0 < (parseContinueEntry "noirflix:progress:movie-x:1:2"
        ⟨50, 5, none, none⟩).progress.percentage ∧
    (parseContinueEntry "noirflix:progress:movie-x:1:2"
        ⟨50, 5, none, none⟩).progress.percentage < 90 := by
  have h := (C9_continue_watching_shape
    [("noirflix:progress:movie-x:1:2", ⟨50, 5, none, none⟩),
     ("noirflix:progress:movie-y", ⟨95, 9, none, none⟩)]).2.1
    (parseContinueEntry "noirflix:progress:movie-x:1:2" ⟨50, 5, none, none⟩)
    (by decide)
  exact ⟨by decide, h⟩

/-! ## C10 — embed iframe sandbox policy
(src/components/content/VideoPlayer.tsx:55-57, 550-560 and the embed-only
player variant in src/components/content/PosterImage.tsx:654-673) -/

/-- The attributes of an `<iframe>` render site that the sandboxing policy
speaks about: the `sandbox` attribute (absent means unrestricted) and the
`referrerPolicy` attribute (absent means the browser default, which sends the
referrer). -/
structure IframeAttrs where
  sandboxTokens : Option (List String)
  referrerPolicy : Option String
  deriving Repr, DecidableEq

/-- `IFRAME_SANDBOX` (VideoPlayer.tsx:56-57). -/
def IFRAME_SANDBOX : String :=
  "allow-scripts allow-same-origin allow-forms allow-presentation"

/-- The token list of `IFRAME_SANDBOX` (space-separated sandbox keywords). -/
def iframeSandboxTokens : List String :=
  (splitOnSep ' ' IFRAME_SANDBOX.toList).map String.mk

/-- The iframe rendered by `SandboxedEmbedPlayer` (VideoPlayer.tsx:550-560):
`sandbox={IFRAME_SANDBOX}` and `referrerPolicy="no-referrer"`. -/
def sandboxedEmbedIframe : IframeAttrs :=
  { sandboxTokens := some iframeSandboxTokens,
    referrerPolicy := some "no-referrer" }

/-- The iframe rendered by the embed-only `VideoPlayerInner` variant
(PosterImage.tsx:662-672): no `sandbox` attribute and no `referrerPolicy`
attribute are set. -/
def embedOnlyVariantIframe : IframeAttrs :=
  { sandboxTokens := none, referrerPolicy := none }

/-- The embed render sites of the player, as cited by the sandboxing policy. -/
def embedIframeRenders : List IframeAttrs :=
  [sandboxedEmbedIframe, embedOnlyVariantIframe]

/-- Scripting is permitted: no sandbox at all, or `allow-scripts` granted. -/
def permitsScripting (attrs : IframeAttrs) : Bool :=
  match attrs.sandboxTokens with
  | none => true
  | some toks => toks.contains "allow-scripts"

/-- Same-origin access is permitted. -/
def permitsSameOrigin (attrs : IframeAttrs) : Bool :=
  match attrs.sandboxTokens with
  | none => true
  | some toks => toks.contains "allow-same-origin"

/-- Popup creation is permitted: no sandbox, or any popup keyword granted. -/
def permitsPopups (attrs : IframeAttrs) : Bool :=
  match attrs.sandboxTokens with
  | none => true
  | some toks =>
    toks.contains "allow-popups" || toks.contains "allow-popups-to-escape-sandbox"

/-- Top-level/window navigation is permitted: no sandbox, or any
top-navigation keyword granted. -/
def permitsTopNavigation (attrs : IframeAttrs) : Bool :=
  match attrs.sandboxTokens with
  | none => true
  | some toks =>
    toks.contains "allow-top-navigation" ||
      toks.contains "allow-top-navigation-by-user-activation" ||
      toks.contains "allow-top-navigation-to-custom-protocols"

/-- The referrer is never sent: only an explicit `no-referrer` policy
guarantees it. -/
def referrerNeverSent (attrs : IframeAttrs) : Bool :=
  decide (attrs.referrerPolicy = some "no-referrer")

/-- The claimed sandboxing policy of one embed render. -/
def iframePolicyHolds (attrs : IframeAttrs) : Bool :=
  permitsScripting attrs && permitsSameOrigin attrs &&
    !permitsPopups attrs && !permitsTopNavigation attrs && referrerNeverSent attrs

/-- C10 counterexample — the policy does not hold for every embed render: the
embed-only player variant (PosterImage.tsx:662-672) sets no `sandbox`
attribute, so popup creation and top-level navigation are permitted there, and
it sets no referrer policy, so the referrer is sent. -/
theorem C10_counterexample :
    ¬ (∀ attrs ∈ embedIframeRenders, iframePolicyHolds attrs = true) ∧
    permitsPopups embedOnlyVariantIframe = true ∧
    permitsTopNavigation embedOnlyVariantIframe = true ∧
    referrerNeverSent embedOnlyVariantIframe = false := by
  refine ⟨?_, by decide, by decide, by decide⟩
  intro h
  have := h embedOnlyVariantIframe (by decide)
  exact absurd this (by decide)

/-- C10 (amended) — the sandboxed-embed render of the main player
(`SandboxedEmbedPlayer`, VideoPlayer.tsx:550-560) satisfies the policy:
scripting and same-origin access are permitted, popup creation and
top-level/window navigation are not, and the referrer is never sent.  The
embed-only player variant in PosterImage.tsx renders its iframe with no
sandbox attribute and no referrer policy, and is excluded. -/
theorem C10_sandbox_policy :
    iframePolicyHolds sandboxedEmbedIframe = true := by
  decide

/-! ## C8 — `buildPlayerUrl` round trip (src/lib/utils.ts:112-124)

URL strings are embedded as byte lists (`List Nat`, each byte < 256), the
level at which `URLSearchParams` percent-encoding operates.  `buildPlayerUrl`
takes a base endpoint (an origin-plus-path produced by
`getPlayerBaseUrlFromAnyPlayerUrl`, so free of `?` and `#`, on which the `URL`
constructor acts as the identity), appends `/player.php`, and serializes the
query parameters `id`, `detailPath`, `season`, `episode` in that order, as
`url.searchParams.set` does on a URL without a prior query. -/

/-- Bytes that `URLSearchParams` serialization leaves unescaped
(`A-Z a-z 0-9 * - . _`). -/
def isUrlUnreserved (b : Nat) : Bool :=
  decide ((48 ≤ b ∧ b ≤ 57) ∨ (65 ≤ b ∧ b ≤ 90) ∨ (97 ≤ b ∧ b ≤ 122) ∨
    b = 42 ∨ b = 45 ∨ b = 46 ∨ b = 95)

/-- Upper-case hexadecimal digit byte for a nibble (`0-9` then `A-F`). -/
def hexDigitByte (n : Nat) : Nat :=
  if n < 10 then 48 + n else 55 + n

/-- Value of a hexadecimal digit byte. -/
def hexValByte (c : Nat) : Nat :=
  if 48 ≤ c ∧ c ≤ 57 then c - 48
  else if 65 ≤ c ∧ c ≤ 70 then c - 55
  else if 97 ≤ c ∧ c ≤ 102 then c - 87
  else 0

/-- `application/x-www-form-urlencoded` encoding of one byte: unescaped bytes
pass through, a space becomes `+`, anything else becomes `%HH`. -/
def encodeByte (b : Nat) : List Nat :=
  if isUrlUnreserved b then [b]
  else if b = 32 then [43]
  else [37, hexDigitByte (b / 16), hexDigitByte (b % 16)]

/-- Encoding of a byte string. -/
def urlencode : List Nat → List Nat
  | [] => []
  | b :: rest => encodeByte b ++ urlencode rest

/-- Decoding of a byte string: `%HH` triples and `+` are decoded, other bytes
pass through (a dangling `%` passes through, as in lenient URL parsing). -/
def urldecode : List Nat → List Nat
  | [] => []
  | [c] => if c = 43 then [32] else [c]
  | [c, d] =>
    if c = 43 then 32 :: urldecode [d] else c :: urldecode [d]
  | c :: d :: e :: rest =>
    if c = 37 then (16 * hexValByte d + hexValByte e) :: urldecode rest
    else if c = 43 then 32 :: urldecode (d :: e :: rest)
    else c :: urldecode (d :: e :: rest)

theorem urldecode_nil : urldecode [] = [] := rfl

theorem urldecode_pct (h l : Nat) (rest : List Nat) :
    urldecode (37 :: h :: l :: rest) =
      (16 * hexValByte h + hexValByte l) :: urldecode rest := rfl

theorem urldecode_plus (rest : List Nat) :
    urldecode (43 :: rest) = 32 :: urldecode rest :=
  match rest with
  | [] => rfl
  | [_] => rfl
  | _ :: _ :: _ => rfl

theorem urldecode_other (c : Nat) (rest : List Nat) (h37 : c ≠ 37) (h43 : c ≠ 43) :
    urldecode (c :: rest) = c :: urldecode rest := by
  match rest with
  | [] =>
    simp only [urldecode]
    rw [if_neg h43]
  | [d] =>
    simp only [urldecode]
    rw [if_neg h43]
  | d :: e :: rest2 =>
    simp only [urldecode]
    rw [if_neg h37, if_neg h43]

/-- Split at the first occurrence of a separator: the part before it and the
part after it (the whole list and `[]` when absent). -/
def splitFirstAt {α : Type} [DecidableEq α] (sep : α) : List α → List α × List α
  | [] => ([], [])
  | c :: rest =>
    if c = sep then ([], rest)
    else
      let p := splitFirstAt sep rest
      (c :: p.1, p.2)

/-- Serialization of a query-parameter list, as `URLSearchParams.toString`:
`key=value` pieces joined by `&`, keys and values percent-encoded. -/
def serializeQuery : List (List Nat × List Nat) → List Nat
  | [] => []
  | [p] => urlencode p.1 ++ 61 :: urlencode p.2
  | p :: rest => urlencode p.1 ++ 61 :: urlencode p.2 ++ 38 :: serializeQuery rest

/-- Parsing of a query string, as the `URLSearchParams` constructor: split on
`&`, skip empty pieces, split each piece at the first `=`, decode both sides. -/
def parseQuery (s : List Nat) : List (List Nat × List Nat) :=
  ((splitOnSep 38 s).filter (fun part => !part.isEmpty)).map
    (fun part =>
      let p := splitFirstAt 61 part
      (urldecode p.1, urldecode p.2))

/-- `String(n)` on a natural number: most-significant-first decimal digit
bytes, computed with structural fuel. -/
def natToBytesCore (fuel n : Nat) : List Nat :=
  match fuel with
  | 0 => []
  | fuel + 1 => if n = 0 then [] else natToBytesCore fuel (n / 10) ++ [n % 10 + 48]

/-- `String(n)`. -/
def natToBytes (n : Nat) : List Nat :=
  if n = 0 then [48] else natToBytesCore n n

/-- `Number(s)` on a pure decimal-digit string. -/
def bytesToNat (s : List Nat) : Nat :=
  s.foldl (fun acc b => 10 * acc + (b - 48)) 0

/-- The byte strings "/player.php", "id", "detailPath", "season", "episode". -/
def playerPhpBytes : List Nat := [47, 112, 108, 97, 121, 101, 114, 46, 112, 104, 112]

def idKeyBytes : List Nat := [105, 100]

def detailPathKeyBytes : List Nat := [100, 101, 116, 97, 105, 108, 80, 97, 116, 104]

def seasonKeyBytes : List Nat := [115, 101, 97, 115, 111, 110]

def episodeKeyBytes : List Nat := [101, 112, 105, 115, 111, 100, 101]

/-- `buildPlayerUrl` (utils.ts:112-124): `${base}/player.php` with query
parameters `id`, `detailPath` and, when given, `season` and `episode`, in
that order. -/
def buildPlayerUrl (base idValue detailPathValue : List Nat)
    (season episode : Option Nat) : List Nat :=
  base ++ playerPhpBytes ++ 63 :: serializeQuery
    ([(idKeyBytes, idValue), (detailPathKeyBytes, detailPathValue)] ++
      (match season with
       | some s => [(seasonKeyBytes, natToBytes s)]
       | none => []) ++
      (match episode with
       | some e => [(episodeKeyBytes, natToBytes e)]
       | none => []))

/-- The query string of a URL without a fragment: everything after the first
`?`. -/
def queryStringOf (url : List Nat) : List Nat :=
  (splitFirstAt 63 url).2

/-- `new URL(url).searchParams.get(key)`: the first value under the key. -/
def getQueryParam (url : List Nat) (key : List Nat) : Option (List Nat) :=
  (parseQuery (queryStringOf url)).lookup key

/-- Parsing the season/episode pair back out of a playback URL, as the
selection resolver does (`Number(searchParams.get(...))`). -/
def parseSeasonEpisode (url : List Nat) : Option (Nat × Nat) :=
  match getQueryParam url seasonKeyBytes, getQueryParam url episodeKeyBytes with
  | some sv, some ev => some (bytesToNat sv, bytesToNat ev)
  | _, _ => none

theorem hexValByte_hexDigitByte (n : Nat) (h : n < 16) :
    hexValByte (hexDigitByte n) = n := by
  unfold hexValByte hexDigitByte
  by_cases h10 : n < 10
  · rw [if_pos h10, if_pos (by omega)]
    omega
  · rw [if_neg h10, if_neg (by omega), if_pos (by omega)]
    omega

theorem hexDigitByte_range (n : Nat) (h : n < 16) :
    (48 ≤ hexDigitByte n ∧ hexDigitByte n ≤ 57) ∨
      (65 ≤ hexDigitByte n ∧ hexDigitByte n ≤ 70) := by
  unfold hexDigitByte
  by_cases h10 : n < 10
  · rw [if_pos h10]
    omega
  · rw [if_neg h10]
    omega

theorem urldecode_encodeByte (b : Nat) (hb : b < 256) (rest : List Nat) :
    urldecode (encodeByte b ++ rest) = b :: urldecode rest := by
  unfold encodeByte
  by_cases hu : isUrlUnreserved b = true
  · rw [if_pos hu]
    have hprop := (decide_eq_true_eq).mp hu
    simp only [List.cons_append, List.nil_append]
    rw [urldecode_other b rest (by omega) (by omega)]
  · rw [if_neg hu]
    by_cases h32 : b = 32
    · rw [if_pos h32]
      simp only [List.cons_append, List.nil_append]
      rw [urldecode_plus, h32]
    · rw [if_neg h32]
      simp only [List.cons_append, List.nil_append]
      rw [urldecode_pct]
      have hh : hexValByte (hexDigitByte (b / 16)) = b / 16 :=
        hexValByte_hexDigitByte _ (by omega)
      have hl : hexValByte (hexDigitByte (b % 16)) = b % 16 :=
        hexValByte_hexDigitByte _ (by omega)
      rw [hh, hl]
      congr 1
      omega

theorem urldecode_urlencode (s : List Nat) (hs : ∀ b ∈ s, b < 256)
    (t : List Nat) : urldecode (urlencode s ++ t) = s ++ urldecode t := by
  induction s with
  | nil => rfl
  | cons b rest ih =>
    rw [urlencode, List.append_assoc, urldecode_encodeByte b (hs b (by simp)) _]
    rw [ih (fun x hx => hs x (by simp [hx]))]
    rfl

theorem urldecode_urlencode_self (s : List Nat) (hs : ∀ b ∈ s, b < 256) :
    urldecode (urlencode s) = s := by
  have h := urldecode_urlencode s hs []
  rw [List.append_nil] at h
  rw [h, urldecode_nil, List.append_nil]

theorem encodeByte_ne_sep (b : Nat) (hb : b < 256) :
    ∀ c ∈ encodeByte b, c ≠ 38 ∧ c ≠ 61 := by
  intro c hc
  unfold encodeByte at hc
  by_cases hu : isUrlUnreserved b = true
  · rw [if_pos hu] at hc
    have hprop := (decide_eq_true_eq).mp hu
    simp only [List.mem_singleton] at hc
    subst hc
    omega
  · rw [if_neg hu] at hc
    by_cases h32 : b = 32
    · rw [if_pos h32] at hc
      simp only [List.mem_singleton] at hc
      omega
    · rw [if_neg h32] at hc
      have hh := hexDigitByte_range (b / 16) (by omega)
      have hl := hexDigitByte_range (b % 16) (by omega)
      simp only [List.mem_cons, List.not_mem_nil, or_false] at hc
      rcases hc with rfl | rfl | rfl
      · omega
      · omega
      · omega

theorem urlencode_ne_sep (s : List Nat) (hs : ∀ b ∈ s, b < 256) :
    ∀ c ∈ urlencode s, c ≠ 38 ∧ c ≠ 61 := by
  induction s with
  | nil => intro c hc; exact absurd hc (List.not_mem_nil c)
  | cons b rest ih =>
    intro c hc
    rw [urlencode] at hc
    rcases List.mem_append.mp hc with h | h
    · exact encodeByte_ne_sep b (hs b (by simp)) c h
    · exact ih (fun x hx => hs x (by simp [hx])) c h

theorem splitOnSep_sepFree {α : Type} [DecidableEq α] (sep : α) (a : List α)
    (ha : ∀ c ∈ a, c ≠ sep) : splitOnSep sep a = [a] := by
  induction a with
  | nil => rfl
  | cons c rest ih =>
    rw [splitOnSep]
    rw [if_neg (ha c (by simp))]
    rw [ih (fun x hx => ha x (by simp [hx]))]

theorem splitOnSep_append {α : Type} [DecidableEq α] (sep : α) (a b : List α)
    (ha : ∀ c ∈ a, c ≠ sep) :
    splitOnSep sep (a ++ sep :: b) = a :: splitOnSep sep b := by
  induction a with
  | nil =>
    simp only [List.nil_append]
    rw [splitOnSep, if_pos rfl]
  | cons c rest ih =>
    simp only [List.cons_append]
    rw [splitOnSep, if_neg (ha c (by simp)), ih (fun x hx => ha x (by simp [hx]))]

theorem splitFirstAt_append {α : Type} [DecidableEq α] (sep : α) (a b : List α)
    (ha : ∀ c ∈ a, c ≠ sep) : splitFirstAt sep (a ++ sep :: b) = (a, b) := by
  induction a with
  | nil =>
    simp only [List.nil_append]
    rw [splitFirstAt, if_pos rfl]
  | cons c rest ih =>
    simp only [List.cons_append]
    rw [splitFirstAt, if_neg (ha c (by simp)), ih (fun x hx => ha x (by simp [hx]))]

/-- Parsing a serialized query recovers the parameter list, for byte-valued
keys and values. -/
theorem parseQuery_serializeQuery (ps : List (List Nat × List Nat))
    (hps : ∀ p ∈ ps, (∀ b ∈ p.1, b < 256) ∧ (∀ b ∈ p.2, b < 256)) :
    parseQuery (serializeQuery ps) = ps := by
  induction ps with
  | nil => rfl
  | cons p rest ih =>
    have hk : ∀ b ∈ p.1, b < 256 := (hps p (by simp)).1
    have hv : ∀ b ∈ p.2, b < 256 := (hps p (by simp)).2
    have hpiece : ∀ c ∈ urlencode p.1 ++ 61 :: urlencode p.2, c ≠ 38 := by
      intro c hc
      rcases List.mem_append.mp hc with h | h
      · exact (urlencode_ne_sep p.1 hk c h).1
      · rcases List.mem_cons.mp h with rfl | h
        · omega
        · exact (urlencode_ne_sep p.2 hv c h).1
    have hsplitpiece :
        splitFirstAt 61 (urlencode p.1 ++ 61 :: urlencode p.2) =
          (urlencode p.1, urlencode p.2) :=
      splitFirstAt_append 61 _ _ (fun c hc => (urlencode_ne_sep p.1 hk c hc).2)
    have hdk : urldecode (urlencode p.1) = p.1 := urldecode_urlencode_self p.1 hk
    have hdv : urldecode (urlencode p.2) = p.2 := urldecode_urlencode_self p.2 hv
    have hne : ((urlencode p.1 ++ 61 :: urlencode p.2).isEmpty = false) := by
      cases h : urlencode p.1 <;> simp [h]
    cases rest with
    | nil =>
      show parseQuery (urlencode p.1 ++ 61 :: urlencode p.2) = [p]
      unfold parseQuery
      rw [splitOnSep_sepFree 38 _ hpiece]
      rw [List.filter_cons, hne]
      simp only [Bool.not_false, if_pos, List.filter_nil, List.map_cons,
        List.map_nil]
      rw [hsplitpiece]
      simp [hdk, hdv]
    | cons q rest2 =>
      have hser : serializeQuery (p :: q :: rest2) =
          (urlencode p.1 ++ 61 :: urlencode p.2) ++ 38 :: serializeQuery (q :: rest2) := by
        show urlencode p.1 ++ 61 :: urlencode p.2 ++ 38 :: serializeQuery (q :: rest2) = _
        simp [List.append_assoc]
      rw [hser]
      have hrest := ih (fun x hx => hps x (by simp [hx]))
      unfold parseQuery
      rw [splitOnSep_append 38 _ _ hpiece]
      rw [List.filter_cons, hne]
      simp only [Bool.not_false, if_pos, List.map_cons]
      unfold parseQuery at hrest
      rw [hrest]
      rw [hsplitpiece]
      simp [hdk, hdv]

theorem natToBytesCore_zero (fuel : Nat) : natToBytesCore fuel 0 = [] := by
  cases fuel <;> rfl

theorem natToBytesCore_digits (fuel n : Nat) (hn : 0 < n) (hf : n ≤ fuel) :
    ∀ b ∈ natToBytesCore fuel n, 48 ≤ b ∧ b ≤ 57 := by
  induction fuel generalizing n with
  | zero => omega
  | succ fuel ih =>
    intro b hb
    rw [natToBytesCore, if_neg (by omega)] at hb
    rcases List.mem_append.mp hb with h | h
    · by_cases hq : n / 10 = 0
      · rw [hq, natToBytesCore_zero] at h
        exact absurd h (List.not_mem_nil b)
      · exact ih (n / 10) (by omega) (by omega) b h
    · simp only [List.mem_singleton] at h
      subst h
      omega

theorem natToBytes_digits (n : Nat) : ∀ b ∈ natToBytes n, 48 ≤ b ∧ b ≤ 57 := by
  unfold natToBytes
  by_cases h0 : n = 0
  · rw [if_pos h0]
    intro b hb
    simp only [List.mem_singleton] at hb
    omega
  · rw [if_neg h0]
    exact natToBytesCore_digits n n (by omega) le_rfl

theorem bytesToNat_natToBytesCore (fuel n : Nat) (hn : 0 < n) (hf : n ≤ fuel) :
    bytesToNat (natToBytesCore fuel n) = n := by
  induction fuel generalizing n with
  | zero => omega
  | succ fuel ih =>
    rw [natToBytesCore, if_neg (by omega)]
    by_cases hq : n / 10 = 0
    · rw [hq, natToBytesCore_zero]
      unfold bytesToNat
      simp only [List.nil_append, List.foldl]
      omega
    · unfold bytesToNat
      rw [List.foldl_append]
      have hrec : bytesToNat (natToBytesCore fuel (n / 10)) = n / 10 :=
        ih (n / 10) (by omega) (by omega)
      unfold bytesToNat at hrec
      rw [hrec]
      simp only [List.foldl]
      omega

/-- `Number(String(n)) = n`. -/
theorem bytesToNat_natToBytes (n : Nat) : bytesToNat (natToBytes n) = n := by
  unfold natToBytes
  by_cases h0 : n = 0
  · rw [if_pos h0, h0]
    rfl
  · rw [if_neg h0]
    exact bytesToNat_natToBytesCore n n (by omega) le_rfl

/-- C8 — for every base endpoint (a byte string free of `?` and `#`, as
produced by `getPlayerBaseUrlFromAnyPlayerUrl`), every byte-valued title id
and title key, and every positive season/episode pair, building the playback
URL and parsing the `season` and `episode` query parameters back out of the
resulting URL yields the original pair. -/
theorem C8_buildPlayerUrl_roundtrip (base idValue detailPathValue : List Nat)
    (season episode : Nat)
    (hbase : ∀ b ∈ base, b ≠ 63 ∧ b ≠ 35)
    (hid : ∀ b ∈ idValue, b < 256)
    (hdp : ∀ b ∈ detailPathValue, b < 256)
    (_hs : 0 < season) (_he : 0 < episode) :
    parseSeasonEpisode
      (buildPlayerUrl base idValue detailPathValue (some season) (some episode)) =
      some (season, episode) := by
  have hurl : buildPlayerUrl base idValue detailPathValue (some season) (some episode) =
      (base ++ playerPhpBytes) ++ 63 :: serializeQuery
        [(idKeyBytes, idValue), (detailPathKeyBytes, detailPathValue),
          (seasonKeyBytes, natToBytes season), (episodeKeyBytes, natToBytes episode)] := by
    unfold buildPlayerUrl
    simp [List.append_assoc]
  have hphp : ∀ c ∈ playerPhpBytes, c ≠ 63 := by decide
  have hsep : ∀ c ∈ base ++ playerPhpBytes, c ≠ 63 := by
    intro c hc
    rcases List.mem_append.mp hc with h | h
    · exact (hbase c h).1
    · exact hphp c h
  have hquery : queryStringOf
      (buildPlayerUrl base idValue detailPathValue (some season) (some episode)) =
      serializeQuery [(idKeyBytes, idValue), (detailPathKeyBytes, detailPathValue),
        (seasonKeyBytes, natToBytes season), (episodeKeyBytes, natToBytes episode)] := by
    rw [hurl]
    unfold queryStringOf
    rw [splitFirstAt_append 63 _ _ hsep]
  have hparse : parseQuery (serializeQuery
      [(idKeyBytes, idValue), (detailPathKeyBytes, detailPathValue),
        (seasonKeyBytes, natToBytes season), (episodeKeyBytes, natToBytes episode)]) =
      [(idKeyBytes, idValue), (detailPathKeyBytes, detailPathValue),
        (seasonKeyBytes, natToBytes season), (episodeKeyBytes, natToBytes episode)] := by
    apply parseQuery_serializeQuery
    intro p hp
    simp only [List.mem_cons, List.not_mem_nil, or_false] at hp
    rcases hp with rfl | rfl | rfl | rfl
    · refine ⟨?_, hid⟩
      show ∀ b ∈ idKeyBytes, b < 256
      decide
    · refine ⟨?_, hdp⟩
      show ∀ b ∈ detailPathKeyBytes, b < 256
      decide
    · refine ⟨?_, ?_⟩
      · show ∀ b ∈ seasonKeyBytes, b < 256
        decide
      · intro b hb
        have := natToBytes_digits season b hb
        omega
    · refine ⟨?_, ?_⟩
      · show ∀ b ∈ episodeKeyBytes, b < 256
        decide
      · intro b hb
        have := natToBytes_digits episode b hb
        omega
  have hlookupS : List.lookup seasonKeyBytes
      [(idKeyBytes, idValue), (detailPathKeyBytes, detailPathValue),
        (seasonKeyBytes, natToBytes season), (episodeKeyBytes, natToBytes episode)] =
      some (natToBytes season) := by
    simp [List.lookup, idKeyBytes, detailPathKeyBytes, seasonKeyBytes, episodeKeyBytes]
  have hlookupE : List.lookup episodeKeyBytes
      [(idKeyBytes, idValue), (detailPathKeyBytes, detailPathValue),
        (seasonKeyBytes, natToBytes season), (episodeKeyBytes, natToBytes episode)] =
      some (natToBytes episode) := by
    simp [List.lookup, idKeyBytes, detailPathKeyBytes, seasonKeyBytes, episodeKeyBytes]
  unfold parseSeasonEpisode getQueryParam
  rw [hquery, hparse, hlookupS, hlookupE]
  show some (bytesToNat (natToBytes season), bytesToNat (natToBytes episode)) =
    some (season, episode)
  rw [bytesToNat_natToBytes, bytesToNat_natToBytes]

/-- Witness for C8 at a concrete URL: base "https://zeldvorik.ru/apiv3"
(bytes), id "123", key "movie-x", pair (2, 5). -/
theorem C8_buildPlayerUrl_roundtrip_witness :
    parseSeasonEpisode
      (buildPlayerUrl
        [104, 116, 116, 112, 115, 58, 47, 47, 122, 101, 108, 100, 118, 111, 114,
         105, 107, 46, 114, 117, 47, 97, 112, 105, 118, 51]
        [49, 50, 51]
        [109, 111, 118, 105, 101, 45, 120]
        (some 2) (some 5)) = some (2, 5) := by
  exact C8_buildPlayerUrl_roundtrip
    [104, 116, 116, 112, 115, 58, 47, 47, 122, 101, 108, 100, 118, 111, 114,
     105, 107, 46, 114, 117, 47, 97, 112, 105, 118, 51]
    [49, 50, 51] [109, 111, 118, 105, 101, 45, 120] 2 5
    (by decide) (by decide) (by decide) (by decide) (by decide)

end MovieApp
